import Mathlib

/-!
Verification of the mtg-keep-or-mull core: a shallow embedding of the
London-Mulligan simulation engine (src/mtg_keep_or_mull/card.py, deck.py,
hand.py, mulligan.py) and of the deck-statistics aggregation endpoint
(src/mtg_keep_or_mull/api/routers/statistics.py, api/models.py), together
with theorems settling the specification claims about them.

Modelling conventions:
- Python lists become Lean `List`s; a `Card` object is its `name` string
  (Card.__eq__ compares names, so value semantics is exact).
- In-place mutation with exceptions becomes explicit state passing: an
  engine operation returns `Except EngineError r × SimState`, where the
  returned state is the state of the engine object after the call — on an
  exception raised mid-loop this includes any mutation already performed,
  exactly as in the Python code.
- `random.shuffle` is non-deterministic; the engine operation that uses it
  takes the shuffle as a function parameter, and theorems hypothesise only
  that the shuffle result is a permutation of its input.
- Python `int` becomes `ℤ` where negative values matter (Deck.draw), `ℕ`
  elsewhere; `float` values produced by exact small-integer arithmetic are
  idealised as `ℚ`.
-/

set_option linter.unusedVariables false

/-- Card (card.py): a named token; `__eq__`/`__hash__` use only `name`,
so the Lean structure with derived equality is an exact model. -/
structure Card where
  name : String
deriving DecidableEq, Repr

deriving instance DecidableEq for Except

/-- Deck.draw (deck.py lines 105-117): `actual_count = min(count, len(self._cards))`,
`drawn = self._cards[:actual_count]`, `self._cards = self._cards[actual_count:]`.
Python slice semantics for an integer bound `a` with `a <= len`: a nonnegative
bound takes the first `a` elements; a negative bound is offset from the end and
clamps at 0.  Returns (drawn cards, remaining deck). -/
def draw (count : ℤ) (cards : List Card) : List Card × List Card :=
  let actual_count : ℤ := min count (cards.length : ℤ)
  let idx : ℕ :=
    if actual_count < 0 then ((cards.length : ℤ) + actual_count).toNat
    else actual_count.toNat
  (cards.take idx, cards.drop idx)

/-- Deck.return_cards (deck.py lines 119-127): `self._cards.extend(cards)`. -/
def return_cards (deck cards : List Card) : List Card :=
  deck ++ cards

/-- Deck.put_on_bottom (deck.py lines 129-135): `self._cards.extend(cards)`. -/
def put_on_bottom (deck cards : List Card) : List Card :=
  deck ++ cards

/-- Hand.remove_card (hand.py lines 31-40): Python `list.remove` removes the
first element equal to the given value, raising ValueError when absent; the
result is `none` in that case. -/
def remove_card : List Card → Card → Option (List Card)
  | [], _ => none
  | x :: xs, c => if x = c then some xs else (remove_card xs c).map (x :: ·)

/-- Boolean lexicographic comparison used to model Python `sorted` on strings. -/
def strLe (a b : String) : Bool := decide (a ≤ b)

/-- Hand.get_signature (hand.py lines 58-72): empty hand gives the empty
string, otherwise the card names sorted with Python `sorted` and joined
with the comma delimiter. -/
def get_signature (cards : List Card) : String :=
  if cards = [] then ""
  else String.intercalate "," ((cards.map Card.name).mergeSort strLe)

/-- Error taxonomy of the engine (spec section 7).  The Python code raises
ValueError in all three situations; the mismatch message carries both the
expected and the received count (mulligan.py lines 85-92), and the
card-not-in-hand case carries the offending card. -/
inductive EngineError where
  | noActiveHand : EngineError
  | bottomCountMismatch (expected actual : ℕ) : EngineError
  | cardNotInHand (card : Card) : EngineError
deriving DecidableEq, Repr

/-- MulliganSimulator state (mulligan.py __init__): the owned deck, the
on-play flag, the mulligan counter and the optional current hand. -/
structure SimState where
  deck : List Card
  on_play : Bool
  mulligan_count : ℕ
  current_hand : Option (List Card)
deriving DecidableEq, Repr

/-- MulliganSimulator.start_game (mulligan.py lines 33-46): reset the
mulligan count, draw 7 cards, install them as the current hand.  The prior
hand, if any, is simply discarded — not returned to the deck. -/
def start_game (s : SimState) : List Card × SimState :=
  let r := draw 7 s.deck
  (r.1, { s with mulligan_count := 0, current_hand := some r.1, deck := r.2 })

/-- MulliganSimulator.mulligan (mulligan.py lines 48-71): fail when no hand
is active; otherwise return the hand's cards to the deck, shuffle, increment
the counter, draw 7 and install the new hand.  `shuffle` is the outcome of
`random.shuffle` on this call, passed as a parameter. -/
def mulligan (shuffle : List Card → List Card) (s : SimState) :
    Except EngineError (List Card) × SimState :=
  match s.current_hand with
  | none => (.error .noActiveHand, s)
  | some hand =>
    let deck₁ := return_cards s.deck hand
    let deck₂ := shuffle deck₁
    let r := draw 7 deck₂
    (.ok r.1,
      { s with deck := r.2, mulligan_count := s.mulligan_count + 1,
               current_hand := some r.1 })

/-- The removal loop of MulliganSimulator.keep (mulligan.py lines 94-96):
`for card in cards_to_bottom: self._current_hand.remove_card(card)`.
On a missing card the loop raises with the hand as mutated so far; the
error carries the offending card and that partially mutated hand. -/
def removeCards : List Card → List Card → Except (Card × List Card) (List Card)
  | hand, [] => .ok hand
  | hand, c :: cs =>
    match remove_card hand c with
    | none => .error (c, hand)
    | some h₁ => removeCards h₁ cs

/-- MulliganSimulator.keep (mulligan.py lines 73-100): fail when no hand is
active; fail with the count mismatch (carrying expected and actual counts)
when the bottoming list length differs from the mulligan count; otherwise
remove the named cards from the hand one by one (a missing card aborts the
loop, leaving the hand partially mutated and the deck untouched) and on
success append them to the bottom of the deck and return the reduced hand. -/
def keep (s : SimState) (cards_to_bottom : List Card) :
    Except EngineError (List Card) × SimState :=
  match s.current_hand with
  | none => (.error .noActiveHand, s)
  | some hand =>
    if cards_to_bottom.length ≠ s.mulligan_count then
      (.error (.bottomCountMismatch s.mulligan_count cards_to_bottom.length), s)
    else
      match removeCards hand cards_to_bottom with
      | .error (c, partialHand) =>
        (.error (.cardNotInHand c), { s with current_hand := some partialHand })
      | .ok newHand =>
        (.ok newHand,
          { s with current_hand := some newHand,
                   deck := put_on_bottom s.deck cards_to_bottom })

/-- Projection of HandDecisionData (models.py lines 9-35) to the two fields
read by the deck-statistics computation: the decision string and the
mulligan count. -/
structure DecisionRecord where
  decision : String
  mulligan_count : ℕ
deriving DecidableEq, Repr

/-- Python round-half-to-even of a rational to an integer (the rounding mode
of builtin `round`). -/
def roundHalfEven (q : ℚ) : ℤ :=
  let f := q - ⌊q⌋
  if f < 1/2 then ⌊q⌋
  else if 1/2 < f then ⌊q⌋ + 1
  else if ⌊q⌋ % 2 = 0 then ⌊q⌋ else ⌊q⌋ + 1

/-- Python `round(x, 2)`: round half-to-even at two decimal places. -/
def round2 (q : ℚ) : ℚ := (roundHalfEven (100 * q) : ℚ) / 100

/-- The keep-decision filter of statistics.py line 113:
`[d for d in decisions if d.decision == "keep"]`. -/
def kept_decisions (decisions : List DecisionRecord) : List DecisionRecord :=
  decisions.filter (fun d => decide (d.decision = "keep"))

/-- The average computation of statistics.py lines 112-118: mean of
`mulligan_count` over the keep decisions, 0.0 when there are none. -/
def average_mulligan_count (decisions : List DecisionRecord) : ℚ :=
  let kept := kept_decisions decisions
  if kept = [] then 0
  else ((kept.map (fun d => d.mulligan_count)).sum : ℚ) / (kept.length : ℚ)

/-- The value placed in the response at statistics.py line 129:
`round(average_mulligan_count, 2)`. -/
def reported_average_mulligan_count (decisions : List DecisionRecord) : ℚ :=
  round2 (average_mulligan_count decisions)

/-- Errors surfaced by the statistics endpoint: the explicit 404s of
statistics.py lines 92-100 and the pydantic ValidationError raised when a
required response-model field is not passed to the constructor; the latter
carries the name of the missing field. -/
inductive ApiError where
  | httpNotFound (detail : String) : ApiError
  | validationError (missing_field : String) : ApiError
deriving DecidableEq, Repr

/-- DeckStatsResponse (api/models.py lines 252-282).  Every field, including
keep_rate_by_mulligan_count, is declared required (pydantic `Field(...)`). -/
structure DeckStatsResponse where
  deck_id : String
  total_games : ℕ
  mulligan_distribution : ℕ → ℕ
  average_mulligan_count : ℚ
  hands_kept_at_7 : ℕ
  hands_kept_at_6 : ℕ
  hands_kept_at_5 : ℕ
  keep_rate_by_mulligan_count : ℕ → Option ℚ

/-- get_deck_statistics (statistics.py lines 76-133).  `deck_found` stands
for the datastore lookup succeeding and `decisions` for the records fetched.
The function 404s on a missing deck or an empty record set, computes
total_games, the keep-only mulligan distribution, the rounded average and
the hands-kept counters, and then calls the DeckStatsResponse constructor —
which OMITS the required field keep_rate_by_mulligan_count (no line of the
function computes it), so pydantic raises ValidationError naming that field
instead of returning a response. -/
def get_deck_statistics (deck_found : Bool) (deck_id : String)
    (decisions : List DecisionRecord) : Except ApiError DeckStatsResponse :=
  if deck_found = false then .error (.httpNotFound "Deck not found")
  else if decisions = [] then .error (.httpNotFound "No statistics available")
  else
    let total_games := decisions.length
    let mulligan_distribution : ℕ → ℕ := fun d =>
      ((kept_decisions decisions).filter (fun r => decide (r.mulligan_count = d))).length
    let avg := round2 (average_mulligan_count decisions)
    let hands_kept_at_7 := mulligan_distribution 0
    let hands_kept_at_6 := mulligan_distribution 1
    let hands_kept_at_5 := mulligan_distribution 2
    .error (.validationError "keep_rate_by_mulligan_count")

/-- Sample card used in concrete instances. -/
def cardA : Card := Card.mk "Brainstorm"

/-- Sample card used in concrete instances. -/
def cardB : Card := Card.mk "Island"

/-- Sample card used in concrete instances. -/
def cardC : Card := Card.mk "Counterspell"

/-- A decision record with the given decision string and mulligan depth. -/
def mkRecord (d : String) (n : ℕ) : DecisionRecord := DecisionRecord.mk d n

/-- Spec scenario D record set: two keeps and three mulls, all at depth 0. -/
def scenarioD : List DecisionRecord :=
  [mkRecord "keep" 0, mkRecord "keep" 0,
   mkRecord "mull" 0, mkRecord "mull" 0, mkRecord "mull" 0]

/-- Spec scenario E record set: keep at 0, mull at 0, mull at 1, keep at 2. -/
def scenarioE : List DecisionRecord :=
  [mkRecord "keep" 0, mkRecord "mull" 0, mkRecord "mull" 1, mkRecord "keep" 2]

/-- A seven-card hand used in concrete instances. -/
def hand7 : List Card := [cardA, cardB, cardB, cardC, cardB, cardB, cardB]

/-- hand7 with its first card (cardA) removed. -/
def hand6 : List Card := [cardB, cardB, cardC, cardB, cardB, cardB]

/-- Engine state after one mulligan: hand7 in play, one card left in deck. -/
def stateMull1 : SimState := SimState.mk [cardC] true 1 (some hand7)

/-- Engine state after two mulligans with a two-card hand and empty deck
(reachable by keeping cards away and mulliganing again). -/
def stateMull2 : SimState := SimState.mk [] true 2 (some [cardA, cardB])

/-- A six-card hand used in concrete instances. -/
def sixCards : List Card := [cardB, cardB, cardB, cardB, cardB, cardB]

/-- Engine state holding a six-card hand with one card left in the deck. -/
def stateSixHand : SimState := SimState.mk [cardA] true 0 (some sixCards)

/-- Engine state holding hand7 with an empty deck. -/
def stateHand7 : SimState := SimState.mk [] true 0 (some hand7)

/-- A fourteen-card deck of distinct cards used in concrete instances. -/
def deck14 : List Card :=
  [Card.mk "c01", Card.mk "c02", Card.mk "c03", Card.mk "c04", Card.mk "c05",
   Card.mk "c06", Card.mk "c07", Card.mk "c08", Card.mk "c09", Card.mk "c10",
   Card.mk "c11", Card.mk "c12", Card.mk "c13", Card.mk "c14"]

/-- Record set of three keep decisions at depths 0, 0 and 1: its exact mean
mulligan count is 1/3, which two-decimal rounding cannot represent. -/
def threeKeeps : List DecisionRecord :=
  [mkRecord "keep" 0, mkRecord "keep" 0, mkRecord "keep" 1]

theorem draw_nat_eq (n : ℕ) (cards : List Card) :
    draw (n : ℤ) cards = (cards.take n, cards.drop n) := by
  have hmin : min (n : ℤ) (cards.length : ℤ) = ((min n cards.length : ℕ) : ℤ) := by
    push_cast
    rfl
  have hnn : ¬ ((min n cards.length : ℕ) : ℤ) < 0 := by omega
  simp only [draw, hmin, if_neg hnn, Int.toNat_natCast]
  rcases Nat.le_total n cards.length with h | h
  · rw [min_eq_left h]
  · rw [min_eq_right h, List.take_length, List.take_of_length_le h, List.drop_length,
      List.drop_eq_nil_of_le h]

theorem draw_seven (cards : List Card) :
    draw 7 cards = (cards.take 7, cards.drop 7) := by
  have h := draw_nat_eq 7 cards
  norm_num at h
  exact h

/-- C8: for every deck and requested count n >= 0, draw(n) never fails, it
removes and returns exactly the first min(n, size) cards in order, the deck
keeps the remaining cards in order, and when fewer than n cards remain all
remaining cards are returned. -/
theorem draw_nonneg_spec (cards : List Card) (n : ℤ) (hn : 0 ≤ n) :
    draw n cards = (cards.take n.toNat, cards.drop n.toNat) ∧
    (draw n cards).1.length = min n.toNat cards.length ∧
    (draw n cards).1 ++ (draw n cards).2 = cards ∧
    ((cards.length : ℤ) ≤ n → (draw n cards).1 = cards ∧ (draw n cards).2 = []) := by
  have hcast : ((n.toNat : ℕ) : ℤ) = n := Int.toNat_of_nonneg hn
  have hdraw : draw n cards = (cards.take n.toNat, cards.drop n.toNat) := by
    rw [← hcast]
    exact draw_nat_eq n.toNat cards
  refine ⟨hdraw, ?_, ?_, ?_⟩
  · rw [hdraw]
    exact List.length_take n.toNat cards
  · rw [hdraw]
    exact List.take_append_drop n.toNat cards
  · intro hle
    have hle' : cards.length ≤ n.toNat := by omega
    rw [hdraw]
    exact ⟨List.take_of_length_le hle', List.drop_eq_nil_of_le hle'⟩

/-- Witness for C8 at a two-card deck and n = 5 (undersized draw). -/
theorem draw_nonneg_spec_witness :
    (0 : ℤ) ≤ 5 ∧
    draw 5 [cardA, cardB] = ([cardA, cardB].take (5 : ℤ).toNat, [cardA, cardB].drop (5 : ℤ).toNat) :=
  ⟨by decide, (draw_nonneg_spec [cardA, cardB] 5 (by decide)).1⟩

/-- C10 counterexample: with a one-card deck and k = s = 1, draw(-1) returns
the empty list, contradicting the claim that the result is never empty. -/
theorem draw_negative_cex :
    1 ≤ 1 ∧ 1 ≤ [cardA].length ∧ (draw (-1) [cardA]).1 = [] := by decide

/-- C10 as amended: for a negative count -k with 1 <= k <= s, draw removes
and returns the first s - k cards (the empty list exactly when k = s) and
leaves the last k cards in the deck. -/
theorem draw_negative_spec (cards : List Card) (k : ℕ) (h1 : 1 ≤ k)
    (h2 : k ≤ cards.length) :
    draw (-(k : ℤ)) cards =
      (cards.take (cards.length - k), cards.drop (cards.length - k)) ∧
    (draw (-(k : ℤ)) cards).2.length = k ∧
    (k < cards.length → (draw (-(k : ℤ)) cards).1 ≠ []) := by
  have hmin : min (-(k : ℤ)) (cards.length : ℤ) = -(k : ℤ) := by
    apply min_eq_left
    omega
  have hneg : (-(k : ℤ)) < 0 := by omega
  have hidx : ((cards.length : ℤ) + -(k : ℤ)).toNat = cards.length - k := by omega
  have hdraw : draw (-(k : ℤ)) cards =
      (cards.take (cards.length - k), cards.drop (cards.length - k)) := by
    simp only [draw, hmin, if_pos hneg, hidx]
  refine ⟨hdraw, ?_, ?_⟩
  · rw [hdraw]
    simp only [List.length_drop]
    omega
  · intro hlt
    rw [hdraw]
    simp only [ne_eq, List.take_eq_nil_iff]
    push_neg
    constructor
    · omega
    · intro hcon
      rw [hcon] at h2
      simp at h2
      omega

/-- Witness for C10 at a three-card deck and k = 1. -/
theorem draw_negative_spec_witness :
    1 ≤ 1 ∧ 1 ≤ [cardA, cardB, cardC].length ∧
    draw (-((1 : ℕ) : ℤ)) [cardA, cardB, cardC] =
      ([cardA, cardB, cardC].take ([cardA, cardB, cardC].length - 1),
       [cardA, cardB, cardC].drop ([cardA, cardB, cardC].length - 1)) :=
  ⟨by decide, by decide, (draw_negative_spec [cardA, cardB, cardC] 1 (by decide) (by decide)).1⟩

/-- C2 (code bug): on the scenario-D record set (two keeps and three mulls
at depth 0, a nonempty decision list for an existing deck) the
get_deck_statistics endpoint does not return a response carrying the
keep-rate table — the DeckStatsResponse constructor call omits the required
field keep_rate_by_mulligan_count, so pydantic raises a ValidationError
naming that field. -/
theorem get_deck_statistics_missing_field :
    scenarioD ≠ [] ∧
    get_deck_statistics true "mono_u_terror" scenarioD =
      Except.error (ApiError.validationError "keep_rate_by_mulligan_count") :=
  ⟨by decide, rfl⟩

theorem remove_card_perm {hand : List Card} {c : Card} {h' : List Card}
    (h : remove_card hand c = some h') : hand.Perm (c :: h') := by
  induction hand generalizing h' with
  | nil => simp [remove_card] at h
  | cons x xs ih =>
    simp only [remove_card] at h
    split at h
    · rename_i hx
      rw [Option.some_inj] at h
      subst h
      subst hx
      exact List.Perm.refl _
    · rename_i hx
      cases hrec : remove_card xs c with
      | none => rw [hrec] at h; simp at h
      | some h₁ =>
        rw [hrec] at h
        simp only [Option.map_some', Option.some_inj] at h
        subst h
        exact ((ih hrec).cons x).trans (List.Perm.swap c x h₁)

theorem removeCards_ok_perm {hand l h' : List Card}
    (h : removeCards hand l = .ok h') : hand.Perm (l ++ h') := by
  induction l generalizing hand with
  | nil =>
    simp only [removeCards, Except.ok.injEq] at h
    subst h
    exact List.Perm.refl _
  | cons c cs ih =>
    simp only [removeCards] at h
    cases hrc : remove_card hand c with
    | none => rw [hrc] at h; simp at h
    | some h₁ =>
      rw [hrc] at h
      exact (remove_card_perm hrc).trans ((ih h).cons c)

theorem removeCards_error_decomp {hand l : List Card} {c : Card} {ph : List Card}
    (h : removeCards hand l = .error (c, ph)) :
    ∃ (k : ℕ) (hk : k < l.length),
      removeCards hand (l.take k) = .ok ph ∧
      l.get ⟨k, hk⟩ = c ∧ remove_card ph c = none := by
  induction l generalizing hand with
  | nil => simp [removeCards] at h
  | cons c₀ cs ih =>
    simp only [removeCards] at h
    cases hrc : remove_card hand c₀ with
    | none =>
      rw [hrc] at h
      simp only [Except.error.injEq, Prod.mk.injEq] at h
      obtain ⟨hc, hh⟩ := h
      subst hc
      subst hh
      exact ⟨0, by simp, by simp [removeCards], rfl, hrc⟩
    | some h₁ =>
      rw [hrc] at h
      obtain ⟨k, hk, h1, h2, h3⟩ := ih h
      refine ⟨k + 1, by simpa using Nat.succ_lt_succ hk, ?_, ?_, h3⟩
      · simpa [removeCards, hrc] using h1
      · simpa using h2

/-- C3: with an active hand, keep(cardsToBottom) fails with
BottomCountMismatch carrying the expected count (the mulligan count) and the
actual count (the list length) and leaves the state unchanged whenever the
two differ, and a BottomCountMismatch failure can only arise from such a
difference — with equal lengths keep proceeds past this check. -/
theorem keep_bottom_count_mismatch_spec (s : SimState) (hand l : List Card)
    (hh : s.current_hand = some hand) :
    (l.length ≠ s.mulligan_count →
      keep s l =
        (Except.error (EngineError.bottomCountMismatch s.mulligan_count l.length), s)) ∧
    (l.length = s.mulligan_count →
      ∀ e a : ℕ, (keep s l).1 ≠ Except.error (EngineError.bottomCountMismatch e a)) := by
  constructor
  · intro hne
    simp only [keep, hh, if_pos hne]
  · intro heq e a
    simp only [keep, hh, if_neg (by omega : ¬ l.length ≠ s.mulligan_count)]
    cases hrm : removeCards hand l with
    | error p =>
      cases p with
      | mk c ph => simp
    | ok nh => simp

/-- Witness for C3: with one mulligan taken and an empty bottoming list,
keep fails with expected count 1 and actual count 0 and the state is
unchanged. -/
theorem keep_bottom_count_mismatch_spec_witness :
    stateMull1.current_hand = some hand7 ∧
    keep stateMull1 [] =
      (Except.error (EngineError.bottomCountMismatch 1 0), stateMull1) :=
  ⟨rfl, (keep_bottom_count_mismatch_spec stateMull1 hand7 [] rfl).1 (by decide)⟩

/-- C4: a successful keep with an active hand of 7 cards and a bottoming
list of exactly the mulligan-count length removes exactly those cards from
the hand (by value, one instance per reference), appends them in order to
the bottom of the deck with the rest of the deck untouched, and returns the
reduced hand of size 7 - mulliganCount (so the count is at most 7). -/
theorem keep_success_spec (s : SimState) (hand l newHand : List Card)
    (hh : s.current_hand = some hand)
    (hlen7 : hand.length = 7)
    (hcount : l.length = s.mulligan_count)
    (hrem : removeCards hand l = Except.ok newHand) :
    keep s l = (Except.ok newHand,
      { s with current_hand := some newHand, deck := s.deck ++ l }) ∧
    hand.Perm (l ++ newHand) ∧
    newHand.length = 7 - s.mulligan_count ∧
    s.mulligan_count ≤ 7 := by
  have hperm := removeCards_ok_perm hrem
  have hlen := hperm.length_eq
  rw [List.length_append] at hlen
  refine ⟨?_, hperm, by omega, by omega⟩
  simp only [keep, hh, if_neg (by omega : ¬ l.length ≠ s.mulligan_count), hrem,
    put_on_bottom]

/-- Witness for C4: after one mulligan, keeping hand7 while bottoming its
first card returns the six-card hand and appends the card to the deck. -/
theorem keep_success_spec_witness :
    stateMull1.current_hand = some hand7 ∧
    hand7.length = 7 ∧
    [cardA].length = stateMull1.mulligan_count ∧
    removeCards hand7 [cardA] = Except.ok hand6 ∧
    keep stateMull1 [cardA] =
      (Except.ok hand6, SimState.mk [cardC, cardA] true 1 (some hand6)) :=
  ⟨rfl, by decide, by decide, by decide,
    (keep_success_spec stateMull1 hand7 [cardA] hand6 rfl (by decide) (by decide)
      (by decide)).1⟩

/-- C1 counterexample: in a two-mulligan state with hand [cardA, cardB] and
empty deck, keep([cardA, missing]) raises CardNotInHand but does NOT leave
the current hand as it was: cardA has already been removed.  The deck is
unchanged. -/
theorem keep_partial_mutation_cex :
    (keep stateMull2 [cardA, cardC]).1 =
      Except.error (EngineError.cardNotInHand cardC) ∧
    (keep stateMull2 [cardA, cardC]).2.current_hand ≠ some [cardA, cardB] ∧
    (keep stateMull2 [cardA, cardC]).2.current_hand = some [cardB] ∧
    (keep stateMull2 [cardA, cardC]).2.deck = stateMull2.deck := by decide

/-- C1 as amended: when keep fails with CardNotInHand, the deck, the
mulligan count and the on-play flag are unchanged (nothing is appended to
the deck), but the current hand is the original hand with the successfully
processed references removed: for some position k in the bottoming list,
the references before k have each consumed one matching instance (the hand
is a permutation of the remainder plus that processed part), and the
reference at position k is the reported card, absent from what is left. -/
theorem keep_card_not_in_hand_spec (s : SimState) (hand l : List Card)
    (c : Card) (s' : SimState)
    (hh : s.current_hand = some hand)
    (hres : keep s l = (Except.error (EngineError.cardNotInHand c), s')) :
    s'.deck = s.deck ∧ s'.mulligan_count = s.mulligan_count ∧
    s'.on_play = s.on_play ∧
    ∃ (ph : List Card) (k : ℕ) (hk : k < l.length),
      s'.current_hand = some ph ∧
      removeCards hand (l.take k) = Except.ok ph ∧
      l.get ⟨k, hk⟩ = c ∧
      remove_card ph c = none ∧
      hand.Perm (l.take k ++ ph) := by
  simp only [keep, hh] at hres
  split at hres
  · simp at hres
  · cases hrm : removeCards hand l with
    | ok nh =>
      rw [hrm] at hres
      simp at hres
    | error p =>
      cases p with
      | mk c₀ ph₀ =>
        rw [hrm] at hres
        simp only [Prod.mk.injEq, Except.error.injEq,
          EngineError.cardNotInHand.injEq] at hres
        obtain ⟨hc, hs⟩ := hres
        subst hc
        subst hs
        obtain ⟨k, hk, h1, h2, h3⟩ := removeCards_error_decomp hrm
        exact ⟨rfl, rfl, rfl, ph₀, k, hk, rfl, h1, h2, h3,
          removeCards_ok_perm h1⟩

/-- Witness for C1 at the concrete failing call of the counterexample. -/
theorem keep_card_not_in_hand_spec_witness :
    stateMull2.current_hand = some [cardA, cardB] ∧
    keep stateMull2 [cardA, cardC] =
      (Except.error (EngineError.cardNotInHand cardC),
        SimState.mk [] true 2 (some [cardB])) ∧
    ((SimState.mk [] true 2 (some [cardB])).deck = stateMull2.deck ∧
     (SimState.mk [] true 2 (some [cardB])).mulligan_count = stateMull2.mulligan_count ∧
     (SimState.mk [] true 2 (some [cardB])).on_play = stateMull2.on_play ∧
     ∃ (ph : List Card) (k : ℕ) (hk : k < [cardA, cardC].length),
       (SimState.mk [] true 2 (some [cardB])).current_hand = some ph ∧
       removeCards [cardA, cardB] ([cardA, cardC].take k) = Except.ok ph ∧
       [cardA, cardC].get ⟨k, hk⟩ = cardC ∧
       remove_card ph cardC = none ∧
       List.Perm [cardA, cardB] ([cardA, cardC].take k ++ ph)) :=
  ⟨rfl, by decide,
    keep_card_not_in_hand_spec stateMull2 [cardA, cardB] [cardA, cardC] cardC
      (SimState.mk [] true 2 (some [cardB])) rfl (by decide)⟩

/-- C5 counterexample: a state with an active six-card hand and a one-card
deck (deck plus hand hold 7 cards, satisfying the claim's condition) where a
mulligan with the identity permutation as the shuffle outcome leaves the
deck empty — deck.size() is NOT restored to its pre-mulligan value 1. -/
theorem mulligan_deck_size_cex :
    7 ≤ stateSixHand.deck.length + sixCards.length ∧
    stateSixHand.current_hand = some sixCards ∧
    (mulligan id stateSixHand).2.deck.length ≠ stateSixHand.deck.length := by decide

/-- C5 as amended: with an active hand and any shuffle outcome that is a
permutation of its input, mulligan succeeds, preserves the combined
multiset of deck and hand (nothing lost or duplicated), increments the
mulligan count by exactly 1, produces a 7-card hand whenever deck plus hand
hold at least 7 cards, and restores the deck size exactly when the returned
hand held 7 cards. -/
theorem mulligan_spec (shuffle : List Card → List Card) (s : SimState)
    (hand : List Card)
    (hh : s.current_hand = some hand)
    (hperm : (shuffle (s.deck ++ hand)).Perm (s.deck ++ hand)) :
    ∃ (h' : List Card) (s' : SimState),
      mulligan shuffle s = (Except.ok h', s') ∧
      s'.current_hand = some h' ∧
      s'.on_play = s.on_play ∧
      s'.mulligan_count = s.mulligan_count + 1 ∧
      (h' ++ s'.deck).Perm (hand ++ s.deck) ∧
      (7 ≤ s.deck.length + hand.length → h'.length = 7) ∧
      (hand.length = 7 → h'.length = 7 ∧ s'.deck.length = s.deck.length) := by
  have hlen : (shuffle (s.deck ++ hand)).length = s.deck.length + hand.length := by
    rw [hperm.length_eq, List.length_append]
  refine ⟨(shuffle (s.deck ++ hand)).take 7,
    { s with deck := (shuffle (s.deck ++ hand)).drop 7,
             mulligan_count := s.mulligan_count + 1,
             current_hand := some ((shuffle (s.deck ++ hand)).take 7) },
    ?_, rfl, rfl, rfl, ?_, ?_, ?_⟩
  · simp only [mulligan, hh, return_cards, draw_seven]
  · rw [List.take_append_drop]
    exact hperm.trans List.perm_append_comm
  · intro h7
    rw [List.length_take]
    omega
  · intro h7
    constructor
    · rw [List.length_take]
      omega
    · rw [List.length_drop]
      omega

/-- Witness for C5: mulligan on a 7-card hand with an empty deck, with the
identity permutation as the shuffle outcome. -/
theorem mulligan_spec_witness :
    stateHand7.current_hand = some hand7 ∧
    (id (stateHand7.deck ++ hand7)).Perm (stateHand7.deck ++ hand7) ∧
    ∃ (h' : List Card) (s' : SimState),
      mulligan id stateHand7 = (Except.ok h', s') ∧
      s'.current_hand = some h' ∧
      s'.on_play = stateHand7.on_play ∧
      s'.mulligan_count = stateHand7.mulligan_count + 1 ∧
      (h' ++ s'.deck).Perm (hand7 ++ stateHand7.deck) ∧
      (7 ≤ stateHand7.deck.length + hand7.length → h'.length = 7) ∧
      (hand7.length = 7 → h'.length = 7 ∧ s'.deck.length = stateHand7.deck.length) :=
  ⟨rfl, List.Perm.refl _, mulligan_spec id stateHand7 hand7 rfl (List.Perm.refl _)⟩

/-- C9: start_game draws the first 7 cards of the deck in order (no
shuffle); a second start_game on the same engine discards the prior hand
without returning it: after two calls on a deck of s >= 14 cards the hand
is the second group of 7, the deck is the remainder of size s - 14, and
every instance of the first hand's cards is gone from deck and hand
combined (for a duplicate-free deck, no first-hand card appears in either). -/
theorem start_game_twice_spec (l : List Card) (b : Bool) (hl : 14 ≤ l.length) :
    (start_game (SimState.mk l b 0 none)).1 = l.take 7 ∧
    (start_game (start_game (SimState.mk l b 0 none)).2).1 = (l.drop 7).take 7 ∧
    (start_game (start_game (SimState.mk l b 0 none)).2).2.deck = l.drop 14 ∧
    (start_game (start_game (SimState.mk l b 0 none)).2).2.deck.length =
      l.length - 14 ∧
    (start_game (start_game (SimState.mk l b 0 none)).2).2.current_hand =
      some ((l.drop 7).take 7) ∧
    (start_game (start_game (SimState.mk l b 0 none)).2).2.mulligan_count = 0 ∧
    (start_game (start_game (SimState.mk l b 0 none)).2).1 ++
      (start_game (start_game (SimState.mk l b 0 none)).2).2.deck = l.drop 7 ∧
    (∀ c : Card,
      ((start_game (start_game (SimState.mk l b 0 none)).2).1 ++
        (start_game (start_game (SimState.mk l b 0 none)).2).2.deck).count c +
        (l.take 7).count c = l.count c) ∧
    (l.Nodup → ∀ c ∈ (start_game (SimState.mk l b 0 none)).1,
      c ∉ (start_game (start_game (SimState.mk l b 0 none)).2).1 ∧
      c ∉ (start_game (start_game (SimState.mk l b 0 none)).2).2.deck) := by
  have h1 : start_game (SimState.mk l b 0 none) =
      (l.take 7, SimState.mk (l.drop 7) b 0 (some (l.take 7))) := by
    simp only [start_game, draw_seven]
  have h2 : start_game (SimState.mk (l.drop 7) b 0 (some (l.take 7))) =
      ((l.drop 7).take 7,
        SimState.mk ((l.drop 7).drop 7) b 0 (some ((l.drop 7).take 7))) := by
    simp only [start_game, draw_seven]
  have hdd : (l.drop 7).drop 7 = l.drop 14 := by
    rw [List.drop_drop]
  have hsplit : (l.drop 7).take 7 ++ (l.drop 7).drop 7 = l.drop 7 :=
    List.take_append_drop 7 (l.drop 7)
  have e2 : start_game (start_game (SimState.mk l b 0 none)).2 =
      ((l.drop 7).take 7,
        SimState.mk (l.drop 14) b 0 (some ((l.drop 7).take 7))) := by
    have e2s : (start_game (SimState.mk l b 0 none)).2 =
        SimState.mk (l.drop 7) b 0 (some (l.take 7)) := by rw [h1]
    rw [e2s, h2, hdd]
  have happ : (start_game (start_game (SimState.mk l b 0 none)).2).1 ++
      (start_game (start_game (SimState.mk l b 0 none)).2).2.deck = l.drop 7 := by
    simp only [e2]
    rw [← hdd]
    exact hsplit
  refine ⟨?_, ?_, ?_, ?_, ?_, ?_, happ, ?_, ?_⟩
  · rw [h1]
  · simp only [e2]
  · simp only [e2]
  · simp only [e2, List.length_drop]
  · simp only [e2]
  · simp only [e2]
  · intro c
    rw [happ]
    have hc1 : (l.take 7 ++ l.drop 7).count c = l.count c := by
      rw [List.take_append_drop]
    rw [List.count_append] at hc1
    omega
  · intro hnd c hc
    rw [h1] at hc
    have hdisj : List.Disjoint (l.take 7) (l.drop 7) :=
      List.disjoint_take_drop hnd (le_refl 7)
    have hnotdrop : c ∉ l.drop 7 := fun hmem => hdisj hc hmem
    constructor
    · intro hmem
      simp only [e2] at hmem
      exact hnotdrop (List.mem_of_mem_take hmem)
    · intro hmem
      simp only [e2] at hmem
      apply hnotdrop
      rw [← hdd] at hmem
      exact List.mem_of_mem_drop hmem

/-- Witness for C9 at a concrete duplicate-free 14-card deck. -/
theorem start_game_twice_spec_witness :
    14 ≤ deck14.length ∧
    (start_game (start_game (SimState.mk deck14 true 0 none)).2).2.deck =
      deck14.drop 14 :=
  ⟨by decide, (start_game_twice_spec deck14 true (by decide)).2.2.1⟩

theorem strLe_trans (a b c : String) (hab : strLe a b = true)
    (hbc : strLe b c = true) : strLe a c = true := by
  simp only [strLe, decide_eq_true_eq] at *
  exact le_trans hab hbc

theorem strLe_total (a b : String) : (strLe a b || strLe b a) = true := by
  simp only [strLe, Bool.or_eq_true, decide_eq_true_eq]
  exact le_total a b

theorem mergeSort_strLe_sorted (l : List String) :
    List.Sorted (· ≤ ·) (l.mergeSort strLe) :=
  (List.sorted_mergeSort strLe_trans strLe_total l).imp
    (fun hs => by simpa [strLe] using hs)

theorem mergeSort_strLe_eq_of_perm {l₁ l₂ : List String} (h : l₁.Perm l₂) :
    l₁.mergeSort strLe = l₂.mergeSort strLe :=
  List.eq_of_perm_of_sorted
    (((List.mergeSort_perm l₁ strLe).trans h).trans
      (List.mergeSort_perm l₂ strLe).symm)
    (mergeSort_strLe_sorted l₁) (mergeSort_strLe_sorted l₂)

/-- C7: the hand signature is invariant under permutation of the card
order — two hands built from the same multiset of names give the same
signature, which is the lexicographically sorted name list joined with the
single comma delimiter (also in the empty case, where it is the empty
string). -/
theorem get_signature_perm_invariant (l₁ l₂ : List Card) (h : l₁.Perm l₂) :
    get_signature l₁ = get_signature l₂ ∧
    (∀ l : List Card,
      get_signature l =
        String.intercalate "," ((l.map Card.name).mergeSort strLe)) ∧
    get_signature [] = "" := by
  have hall : ∀ l : List Card,
      get_signature l =
        String.intercalate "," ((l.map Card.name).mergeSort strLe) := by
    intro l
    by_cases hl : l = []
    · subst hl
      rw [show (List.map Card.name ([] : List Card)) = [] from rfl,
        List.mergeSort_nil]
      rfl
    · simp only [get_signature, if_neg hl]
  refine ⟨?_, hall, rfl⟩
  rw [hall l₁, hall l₂]
  congr 1
  exact mergeSort_strLe_eq_of_perm (h.map Card.name)

/-- Witness for C7 at a two-card hand and its reversal. -/
theorem get_signature_perm_invariant_witness :
    [cardA, cardB].Perm [cardB, cardA] ∧
    get_signature [cardA, cardB] = get_signature [cardB, cardA] :=
  ⟨by decide, (get_signature_perm_invariant [cardA, cardB] [cardB, cardA] (by decide)).1⟩

theorem roundHalfEven_abs_sub_le (q : ℚ) : |(roundHalfEven q : ℚ) - q| ≤ 1/2 := by
  have h0 : (⌊q⌋ : ℚ) ≤ q := Int.floor_le q
  have h1 : q < ⌊q⌋ + 1 := Int.lt_floor_add_one q
  simp only [roundHalfEven]
  split
  · rename_i h2
    rw [abs_le]
    constructor
    · linarith
    · linarith
  · rename_i h2
    push_neg at h2
    split
    · rename_i h3
      rw [abs_le]
      push_cast
      constructor
      · linarith
      · linarith
    · rename_i h3
      push_neg at h3
      split
      · rw [abs_le]
        constructor
        · linarith
        · linarith
      · rw [abs_le]
        push_cast
        constructor
        · linarith
        · linarith

theorem round2_abs_sub_le (q : ℚ) : |round2 q - q| ≤ 1/200 := by
  have h := roundHalfEven_abs_sub_le (100 * q)
  have heq : round2 q - q = ((roundHalfEven (100 * q) : ℚ) - 100 * q) / 100 := by
    rw [round2]
    ring
  rw [heq, abs_div, abs_of_pos (by norm_num : (0 : ℚ) < 100)]
  linarith

theorem round2_zero : round2 0 = 0 := by
  have hf : ⌊(100 : ℚ) * 0⌋ = 0 := by norm_num
  simp only [round2, roundHalfEven, hf]
  norm_num

theorem round2_one : round2 1 = 1 := by
  have hf : ⌊(100 : ℚ) * 1⌋ = 100 := by norm_num
  simp only [round2, roundHalfEven, hf]
  norm_num

theorem kept_decisions_idem (records : List DecisionRecord) :
    kept_decisions (kept_decisions records) = kept_decisions records := by
  simp [kept_decisions, List.filter_filter, Bool.and_self]

theorem threeKeeps_mean :
    (((kept_decisions threeKeeps).map (fun d => d.mulligan_count)).sum : ℚ) /
      ((kept_decisions threeKeeps).length : ℚ) = 1/3 := by
  have hk : kept_decisions threeKeeps = threeKeeps := rfl
  rw [hk]
  simp only [threeKeeps, mkRecord, List.map_cons, List.map_nil, List.sum_cons,
    List.sum_nil, List.length_cons, List.length_nil]
  norm_num

/-- C6 counterexample: for three keep records at depths 0, 0 and 1 the
arithmetic mean of the mulligan counts over keep records is 1/3, but the
value the code reports is round(1/3, 2) = 0.33, which differs from the
mean — the claim that averageMulliganCount equals the arithmetic mean
fails at this input. -/
theorem average_mulligan_count_rounding_cex :
    (((kept_decisions threeKeeps).map (fun d => d.mulligan_count)).sum : ℚ) /
      ((kept_decisions threeKeeps).length : ℚ) = 1/3 ∧
    reported_average_mulligan_count threeKeeps = 33/100 ∧
    reported_average_mulligan_count threeKeeps ≠ 1/3 := by
  have hk : kept_decisions threeKeeps = threeKeeps := rfl
  have havg : average_mulligan_count threeKeeps = 1/3 := by
    simp only [average_mulligan_count, hk]
    rw [if_neg (by decide : ¬ threeKeeps = [])]
    simp only [threeKeeps, mkRecord, List.map_cons, List.map_nil, List.sum_cons,
      List.sum_nil, List.length_cons, List.length_nil]
    norm_num
  have hfloor : ⌊(100 : ℚ) * (1/3)⌋ = 33 := by
    rw [show (100 : ℚ) * (1/3) = 100/3 by norm_num]
    rw [Int.floor_eq_iff]
    norm_num
  have hrhe : roundHalfEven ((100 : ℚ) * (1/3)) = 33 := by
    simp only [roundHalfEven, hfloor]
    norm_num
  have hrep : reported_average_mulligan_count threeKeeps = 33/100 := by
    rw [reported_average_mulligan_count, havg, round2, hrhe]
    norm_num
  refine ⟨threeKeeps_mean, hrep, ?_⟩
  rw [hrep]
  norm_num

/-- C6 as amended: averageMulliganCount is computed over keep-decision
records only (mull records are excluded: filtering to keeps first changes
nothing), equals 0.0 when no keep records exist, is otherwise the
arithmetic mean rounded half-to-even at two decimal places (hence within
1/200 of the exact mean), and on the records
[keep@0, mull@0, mull@1, keep@2] it is exactly 1.0. -/
theorem average_mulligan_count_spec (records : List DecisionRecord) :
    reported_average_mulligan_count records =
      reported_average_mulligan_count (kept_decisions records) ∧
    (if kept_decisions records = []
     then reported_average_mulligan_count records = 0
     else
       |reported_average_mulligan_count records -
          (((kept_decisions records).map (fun d => d.mulligan_count)).sum : ℚ) /
            ((kept_decisions records).length : ℚ)| ≤ 1/200) ∧
    reported_average_mulligan_count scenarioE = 1 := by
  refine ⟨?_, ?_, ?_⟩
  · simp only [reported_average_mulligan_count, average_mulligan_count,
      kept_decisions_idem]
  · by_cases hke : kept_decisions records = []
    · rw [if_pos hke]
      simp only [reported_average_mulligan_count, average_mulligan_count,
        if_pos hke]
      exact round2_zero
    · rw [if_neg hke]
      have havg : average_mulligan_count records =
          (((kept_decisions records).map (fun d => d.mulligan_count)).sum : ℚ) /
            ((kept_decisions records).length : ℚ) := by
        simp only [average_mulligan_count, if_neg hke]
      rw [reported_average_mulligan_count, havg]
      exact round2_abs_sub_le _
  · have hk : kept_decisions scenarioE = [mkRecord "keep" 0, mkRecord "keep" 2] := rfl
    have havg : average_mulligan_count scenarioE = 1 := by
      simp only [average_mulligan_count, hk]
      rw [if_neg (by decide : ¬ [mkRecord "keep" 0, mkRecord "keep" 2] = [])]
      simp only [mkRecord, List.map_cons, List.map_nil, List.sum_cons,
        List.sum_nil, List.length_cons, List.length_nil]
      norm_num
    rw [reported_average_mulligan_count, havg]
    exact round2_one

/-- Witness for C6: the reported average over scenario E is exactly 1.0. -/
theorem average_mulligan_count_spec_witness :
    reported_average_mulligan_count scenarioE = 1 :=
  (average_mulligan_count_spec scenarioE).2.2
